import Mathlib

/-!
# System-info instance: property registry, request dispatch and listeners

A shallow embedding of `src/system_info/system_info_instance.cc`
(`SystemInfoInstance`): the registry `classes_` and its construction
(`RegisterClass`, `InstancesMapInitialize`), the handlers
`HandleGetPropertyValue`, `HandleStartListening`, `HandleStopListening`,
`HandleMessage`, the destructor, and the synchronous path (`HandleSyncMessage`,
`HandleGetCapabilities`).  Stateful code is written as explicit
state passing over a `World` that holds what the handlers can touch: the
listener list of every provider, the messages posted to every instance, the
text written to standard output and a log of the provider operations invoked.
-/

namespace SystemInfo

/-! ## JSON values (picojson) -/

/-- Modelled from the spec: `common/picojson.h` is not among the sources.  A
`picojson::value` is null, a boolean, a number, a string, an array or an object
(a `std::map` from keys to values).  Numbers are restricted to integers. -/
inductive Json where
  | null
  | bool (b : Bool)
  | num (n : Int)
  | str (s : String)
  | arr (xs : List Json)
  | obj (fields : List (String × Json))

/-- The field map of a JSON object, `picojson::object`. -/
abbrev Fields := List (String × Json)

/-- Modelled from the spec: `picojson::value::to_str` (not among the sources):
a string is returned as it is, every other value is rendered by its kind. -/
def Json.to_str : Json → String
  | .null => "null"
  | .bool b => if b then "true" else "false"
  | .num n => toString n
  | .str s => s
  | .arr _ => "array"
  | .obj _ => "object"

/-- Lookup in a `std::map` keyed by strings: exact, case-sensitive equality of
the key (`std::map::find`). -/
def mapFind {α : Type} : List (String × α) → String → Option α
  | [], _ => none
  | (k, v) :: rest, key => if key = k then some v else mapFind rest key

/-- Assignment `m[key] = val` in a `std::map` keyed by strings: an existing
key is overwritten, a new key is placed in key order (the lexicographic order
of `std::string`, compared character by character). -/
def mapAssign {α : Type} : List (String × α) → String → α → List (String × α)
  | [], key, val => [(key, val)]
  | (k, v) :: rest, key, val =>
    if key = k then (key, val) :: rest
    else if key.data < k.data then (key, val) :: (k, v) :: rest
    else (k, v) :: mapAssign rest key val

/-- Modelled from the spec: `picojson::value::get(key)` on a field map (not
among the sources): the value stored under `key`, or the null value when the
key is absent. -/
def Fields.get (o : Fields) (key : String) : Json :=
  (mapFind o key).getD Json.null

/-- Modelled from the spec: `picojson::value::get(key)` (not among the
sources).  It is defined on objects only: on any other value picojson's
assertion fails, which is `none` here. -/
def Json.get : Json → String → Option Json
  | .obj o, key => some (Fields.get o key)
  | _, _ => none

/-- Modelled from the spec: `system_info::SetPicoJsonObjectValue(obj, prop,
val)` (`system_info_utils`, not among the sources) stores `val` under `prop`
in the object `obj`; it is defined on objects only. -/
def SetPicoJsonObjectValue : Json → String → Json → Option Json
  | .obj o, key, val => some (.obj (mapAssign o key val))
  | _, _, _ => none

/-! ## Providers, instances and the world -/

/-- Identity of a provider singleton (`T::GetInstance()`). -/
abbrev ProviderId := Nat

/-- Identity of a `SystemInfoInstance` (the pointer `this`), one per client. -/
abbrev InstanceId := Nat

/-- A provider operation invoked by the instance. -/
inductive ProviderCall where
  | Get (provider : ProviderId)
  | AddListener (provider : ProviderId) (client : InstanceId)
  | RemoveListener (provider : ProviderId) (client : InstanceId)
deriving DecidableEq, Repr

/-- What the code takes from outside this file: the JSON parser and
serialiser of picojson and the `Get` operation of every provider. -/
structure Platform where
  /-- The call `picojson::parse(input, first, last, &err)`: the parsed value
  and the error text, empty on success. -/
  parse : String → Json × String
  /-- The call `picojson::value::serialize()`. -/
  serialize : Json → String
  /-- The call `Get(error, data)` of a provider, which receives the two
  values `error` and `data` by reference and may assign anything to them: the
  two values after the call. -/
  Get : ProviderId → Json → Json → Json × Json

/-- Everything the handlers read or write outside the instance. -/
structure World where
  /-- The listener list of each provider. -/
  listeners : ProviderId → List InstanceId
  /-- The messages handed to `PostMessage`, oldest first, with the instance
  they were posted to. -/
  posted : List (InstanceId × String)
  /-- The lines written to `std::cout`. -/
  cout : List String
  /-- The provider operations invoked so far, oldest first. -/
  calls : List ProviderCall

/-- A `SystemInfoInstance`: its identity and its registry `classes_`, a map
from category names to providers. -/
structure SystemInfoInstance where
  self : InstanceId
  classes_ : List (String × ProviderId)

/-- Modelled from the spec: `AddListener` of a provider (provider classes are
not among the sources).  The spec: "registers `client` as an observer on the
provider if not already registered for this (client, category) pair;
idempotent". -/
def AddListener (p : ProviderId) (client : InstanceId) (w : World) : World :=
  { w with
    listeners := Function.update w.listeners p
      (if client ∈ w.listeners p then w.listeners p else w.listeners p ++ [client])
    calls := w.calls ++ [ProviderCall.AddListener p client] }

/-- Modelled from the spec: `RemoveListener` of a provider (provider classes
are not among the sources).  The spec: "removes the (client, category) relation
if present; removing a non-existent subscription is a no-op, not an error". -/
def RemoveListener (p : ProviderId) (client : InstanceId) (w : World) : World :=
  { w with
    listeners := Function.update w.listeners p
      ((w.listeners p).filter (fun c => decide (c ≠ client)))
    calls := w.calls ++ [ProviderCall.RemoveListener p client] }

/-- Modelled from the spec: a provider-side change (provider classes are not
among the sources).  The spec: the change is fanned "out to every client
currently subscribed to that category", one delivery per subscription. -/
def providerChange (p : ProviderId) (event : String) (w : World) : World :=
  { w with posted := w.posted ++ (w.listeners p).map (fun c => (c, event)) }

/-- The call `PostMessage(msg)` of an instance. -/
def PostMessage (self : InstanceId) (msg : String) (w : World) : World :=
  { w with posted := w.posted ++ [(self, msg)] }

/-! ## The handlers -/

/-- The method `SystemInfoInstance::HandleGetPropertyValue(input, output)`. -/
def HandleGetPropertyValue (P : Platform) (inst : SystemInfoInstance)
    (input output : Json) (w : World) : Option World := do
  let reply_id := (← input.get "_reply_id").to_str
  let output ← SetPicoJsonObjectValue output "_reply_id" (Json.str reply_id)
  let error := Json.obj []
  let data := Json.obj []
  let error ← SetPicoJsonObjectValue error "message" (Json.str "")
  let prop := (← input.get "prop").to_str
  let (error, data, w) ←
    match mapFind inst.classes_ prop with
    | none => do
      let error ← SetPicoJsonObjectValue error "message"
        (Json.str ("Property not supported: " ++ prop))
      pure (error, data, w)
    | some p =>
      let r := P.Get p error data
      pure (r.1, r.2, { w with calls := w.calls ++ [ProviderCall.Get p] })
  let message ← error.get "message"
  let output ←
    if message.to_str ≠ "" then
      SetPicoJsonObjectValue output "error" error
    else
      SetPicoJsonObjectValue output "data" data
  let result := P.serialize output
  pure (PostMessage inst.self result w)

/-- The method `SystemInfoInstance::HandleStartListening(input)`. -/
def HandleStartListening (inst : SystemInfoInstance) (input : Json) (w : World) :
    Option World := do
  let prop := (← input.get "prop").to_str
  match mapFind inst.classes_ prop with
  | some p => pure (AddListener p inst.self w)
  | none => pure w

/-- The method `SystemInfoInstance::HandleStopListening(input)`. -/
def HandleStopListening (inst : SystemInfoInstance) (input : Json) (w : World) :
    Option World := do
  let prop := (← input.get "prop").to_str
  match mapFind inst.classes_ prop with
  | some p => pure (RemoveListener p inst.self w)
  | none => pure w

/-- The method `SystemInfoInstance::HandleMessage(message)`. -/
def HandleMessage (P : Platform) (inst : SystemInfoInstance) (message : String)
    (w : World) : Option World :=
  let input := (P.parse message).1
  let err := (P.parse message).2
  if err ≠ "" then
    some { w with cout := w.cout ++ ["Ignoring message.\n"] }
  else do
    let cmd := (← input.get "cmd").to_str
    if cmd = "getPropertyValue" then
      HandleGetPropertyValue P inst input (Json.obj []) w
    else if cmd = "startListening" then
      HandleStartListening inst input w
    else if cmd = "stopListening" then
      HandleStopListening inst input w
    else
      pure w

/-- The destructor `SystemInfoInstance::~SystemInfoInstance()`: the loop over
`classes_` from `begin()` to `end()`. -/
def destroy (inst : SystemInfoInstance) (w : World) : World :=
  inst.classes_.foldl (fun acc entry => RemoveListener entry.2 inst.self acc) w

/-! ## Provider changes seen by a client -/

/-- The messages posted to `client`, oldest first. -/
def postedTo (client : InstanceId) (w : World) : List String :=
  (w.posted.filter (fun m => decide (m.1 = client))).map Prod.snd

/-- A sequence of provider-side changes, each with its provider and event. -/
def providerChanges (changes : List (ProviderId × String)) (w : World) : World :=
  changes.foldl (fun acc ch => providerChange ch.1 ch.2 acc) w

/-! ## Building the registry -/

/-- The call `m.insert(pair(key, val))` on a `std::map` keyed by strings: a
key that is already present keeps its value and nothing is inserted, a new
key is placed in key order. -/
def mapInsert {α : Type} : List (String × α) → String → α → List (String × α)
  | [], key, val => [(key, val)]
  | (k, v) :: rest, key, val =>
    if key = k then (k, v) :: rest
    else if key.data < k.data then (key, val) :: (k, v) :: rest
    else (k, v) :: mapInsert rest key val

/-- The keys of a `std::map` are strictly increasing. -/
def keysSorted {α : Type} (m : List (String × α)) : Prop :=
  List.Pairwise (fun a b => a.1.data < b.1.data) m

/-- A provider class `T` as `RegisterClass<T>` uses it: the category name
`T::name_` and the singleton `T::GetInstance()`.  The provider classes are not
among the sources, so both are given from outside. -/
structure ProviderClass where
  name_ : String
  GetInstance : ProviderId
deriving DecidableEq

/-- The method `SystemInfoInstance::RegisterClass<T>()`: the pair of `T::name_`
and `T::GetInstance()` is handed to `classes_.insert`, whose result is not
looked at. -/
def RegisterClass (T : ProviderClass) (inst : SystemInfoInstance) : SystemInfoInstance :=
  { inst with classes_ := mapInsert inst.classes_ T.name_ T.GetInstance }

/-- The twelve provider classes named in `InstancesMapInitialize`. -/
structure ProviderClasses where
  SysInfoBattery : ProviderClass
  SysInfoBuild : ProviderClass
  SysInfoCellularNetwork : ProviderClass
  SysInfoCpu : ProviderClass
  SysInfoDeviceOrientation : ProviderClass
  SysInfoDisplay : ProviderClass
  SysInfoLocale : ProviderClass
  SysInfoNetwork : ProviderClass
  SysInfoPeripheral : ProviderClass
  SysInfoSim : ProviderClass
  SysInfoStorage : ProviderClass
  SysInfoWifiNetwork : ProviderClass

/-- The method `SystemInfoInstance::InstancesMapInitialize()`. -/
def InstancesMapInitialize (T : ProviderClasses) (inst : SystemInfoInstance) :
    SystemInfoInstance :=
  let inst := RegisterClass T.SysInfoBattery inst
  let inst := RegisterClass T.SysInfoBuild inst
  let inst := RegisterClass T.SysInfoCellularNetwork inst
  let inst := RegisterClass T.SysInfoCpu inst
  let inst := RegisterClass T.SysInfoDeviceOrientation inst
  let inst := RegisterClass T.SysInfoDisplay inst
  let inst := RegisterClass T.SysInfoLocale inst
  let inst := RegisterClass T.SysInfoNetwork inst
  let inst := RegisterClass T.SysInfoPeripheral inst
  let inst := RegisterClass T.SysInfoSim inst
  let inst := RegisterClass T.SysInfoStorage inst
  RegisterClass T.SysInfoWifiNetwork inst

/-- The classes of `InstancesMapInitialize` in the order of registration. -/
def registrationOrder (T : ProviderClasses) : List ProviderClass :=
  [T.SysInfoBattery, T.SysInfoBuild, T.SysInfoCellularNetwork, T.SysInfoCpu,
   T.SysInfoDeviceOrientation, T.SysInfoDisplay, T.SysInfoLocale, T.SysInfoNetwork,
   T.SysInfoPeripheral, T.SysInfoSim, T.SysInfoStorage, T.SysInfoWifiNetwork]

/-- Registration of a list of classes, first to last. -/
def registerAll (l : List ProviderClass) (inst : SystemInfoInstance) : SystemInfoInstance :=
  l.foldl (fun acc T => RegisterClass T acc) inst

/-- The provider of the first class named `name` in a registration order. -/
def firstRegistered (l : List ProviderClass) (name : String) : Option ProviderId :=
  (l.find? (fun T => decide (T.name_ = name))).map (fun T => T.GetInstance)

/-! ## The capability snapshot -/

/-- The preprocessor symbols that select the body of `HandleGetCapabilities`. -/
structure BuildFlags where
  TIZEN_MOBILE : Bool
  GENERIC_DESKTOP : Bool

/-- The value of the variable `char* s` as far as `free(s)` is concerned: the
null pointer, a pointer to a block from `malloc` (as `strdup` and the platform
lookups return), or any other pointer, such as one into an automatic array. -/
inductive CharPtr where
  | null
  | heap (text : String)
  | notHeap (text : String)
deriving DecidableEq, Repr

/-- The call `free(s)`: defined for the null pointer and for a block from
`malloc`; for any other pointer the behaviour is undefined (the C library
aborts the process), which is `none` here. -/
def free : CharPtr → Option Unit
  | .null => some ()
  | .heap _ => some ()
  | .notHeap _ => none

/-- The expression `s ? s : ""`. -/
def CharPtr.orEmpty : CharPtr → String
  | .null => ""
  | .heap text => text
  | .notHeap text => text

/-- What the mobile body of `HandleGetCapabilities` takes from outside: the
feature store of the platform, the cache file, and the capability lookups
around the blocks modelled here, which only assign fields of `o`. -/
structure MobilePlatform where
  /-- The call `system_info_get_platform_bool(key, &b)`: `none` when the status
  is not `SYSTEM_INFO_ERROR_NONE`, otherwise the value stored in `b`. -/
  system_info_get_platform_bool : String → Option Bool
  /-- The call `system_info_get_platform_string(key, &s)`: `none` when the
  status is not `SYSTEM_INFO_ERROR_NONE` (then `s` is left as it was),
  otherwise the text of the allocated string stored in `s`. -/
  system_info_get_platform_string : String → Option String
  /-- What the variable `s`, declared without an initial value, holds before
  its first assignment. -/
  uninitialised_s : CharPtr
  /-- The file "/opt/usr/etc/system_info_cache.ini": `none` when `fopen`
  fails, otherwise the strings that the successive calls of `fgets` deliver. -/
  system_info_cache : Option (List String)
  /-- The effect on `o` of the lookups before the texture formats ("bluetooth"
  to "openglesVersion2_0"). -/
  capabilitiesBefore : Fields → Fields
  /-- The effect on `o` of the lookups between the texture formats and the
  device identifier ("fmRadio" to "sipVoip"), which start with the flag `data`
  as the texture block left it; every `free(s)` in them is given `NULL`, a
  string of the platform or the result of `strdup`. -/
  capabilitiesMiddle : Bool → Fields → Fields
  /-- The effect on `o` of the lookups after the device identifier
  ("speechRecognition" to "profile"). -/
  capabilitiesAfter : Fields → Fields

/-- The test `system_info_get_platform_bool(key, &b) == SYSTEM_INFO_ERROR_NONE
&& b == true`. -/
def platformBoolIsTrue (M : MobilePlatform) (key : String) : Bool :=
  match M.system_info_get_platform_bool key with
  | some true => true
  | _ => false

/-- The texture-format block of `HandleGetCapabilities` for given outcomes of
its six tests: the buffer `textureFormatFull` and the flag `data` at the end.
The buffer of `MAXBUFSIZE` characters never fills, the longest text has 35. -/
def textureFormatBlock (utc ptc etc tdc atc pvrtc : Bool) : String × Bool :=
  let textureFormatFull := ""
  let data := false
  let (textureFormatFull, data) :=
    if utc then (textureFormatFull ++ "utc", true) else (textureFormatFull, data)
  let (textureFormatFull, data) :=
    if ptc then
      ((if data then textureFormatFull ++ " | " else textureFormatFull) ++ "ptc", true)
    else (textureFormatFull, data)
  let (textureFormatFull, data) :=
    if etc then
      ((if data then textureFormatFull ++ " | " else textureFormatFull) ++ "etc", true)
    else (textureFormatFull, data)
  let textureFormatFull :=
    if tdc then (if data then textureFormatFull ++ " | " else textureFormatFull) ++ "3dc"
    else textureFormatFull
  let (textureFormatFull, data) :=
    if atc then
      ((if data then textureFormatFull ++ " | " else textureFormatFull) ++ "atc", true)
    else (textureFormatFull, data)
  let textureFormatFull :=
    if pvrtc then (if data then textureFormatFull ++ " | " else textureFormatFull) ++ "pvrtc"
    else textureFormatFull
  (textureFormatFull, data)

/-- The texture-format block on a platform: the six tests in the order of the
code. -/
def textureFormatFull (M : MobilePlatform) : String × Bool :=
  textureFormatBlock
    (platformBoolIsTrue M "tizen.org/feature/opengles.texture_format.utc")
    (platformBoolIsTrue M "tizen.org/feature/opengles.texture_format.ptc")
    (platformBoolIsTrue M "tizen.org/feature/opengles.texture_format.etc")
    (platformBoolIsTrue M "tizen.org/feature/opengles.texture_format.3dc")
    (platformBoolIsTrue M "tizen.org/feature/opengles.texture_format.atc")
    (platformBoolIsTrue M "tizen.org/feature/opengles.texture_format.pvrtc")

/-- The texture formats as the specification words them: the names whose flag
holds, in the fixed order, joined with " | ". -/
def joinedTextureFormats (utc ptc etc tdc atc pvrtc : Bool) : String :=
  " | ".intercalate
    (([("utc", utc), ("ptc", ptc), ("etc", etc), ("3dc", tdc), ("atc", atc),
       ("pvrtc", pvrtc)].filter (fun f => f.2)).map (fun f => f.1))

/-- Modelled from the spec: `SetStringPropertyValue(o, prop, val)`
(`system_info_utils`, not among the sources) stores the string `val` under
`prop` in the object `o`. -/
def SetStringPropertyValue (o : Fields) (prop val : String) : Fields :=
  mapAssign o prop (Json.str val)

/-- The variable `s` at the first `free(s)` of the mobile body: the string of
the keyboard-layout lookup when that lookup succeeds, otherwise still what the
uninitialised variable held. -/
def keyboardLayoutPtr (M : MobilePlatform) : CharPtr :=
  match M.system_info_get_platform_string "tizen.org/feature/input.keyboard.layout" with
  | some text => CharPtr.heap text
  | none => M.uninitialised_s

/-- The call `strtok_r(str, "=\r\n", &ptr)` on the characters from the
current position: leading delimiters are skipped; at the end of the text the
result is `NULL`, otherwise the token up to the next delimiter, together with
the position after that delimiter. -/
def strtok_r (str : List Char) : Option (List Char × List Char) :=
  match str.dropWhile (fun c => "=\r\n".data.contains c) with
  | [] => none
  | c :: cs =>
    some ((c :: cs).takeWhile (fun c => !"=\r\n".data.contains c),
      ((c :: cs).dropWhile (fun c => !"=\r\n".data.contains c)).drop 1)

/-- The loop over the cache file: the variable `s` after it.  The first line
that starts with the `DUID_KEY_STRING` (28) characters of
"http://tizen.org/system/duid" ends the loop; its second token, when there is
one, is assigned to `s`, a pointer into the automatic array `duid`. -/
def duidLoop : List String → CharPtr
  | [] => CharPtr.null
  | duid :: rest =>
    if duid.data.take 28 = "http://tizen.org/system/duid".data then
      match strtok_r duid.data with
      | none => CharPtr.null
      | some (_, ptr) =>
        match strtok_r ptr with
        | none => CharPtr.null
        | some (token, _) => CharPtr.notHeap (String.mk token)
    else duidLoop rest

/-- The variable `s` after the device-identifier block: `NULL` when the file
cannot be opened. -/
def duidPtr (M : MobilePlatform) : CharPtr :=
  match M.system_info_cache with
  | none => CharPtr.null
  | some lines => duidLoop lines

/-- The object `o` of `HandleGetCapabilities` when it is serialised; `none`
when a `free(s)` with undefined behaviour is reached before that.  The two
`free(s)` calls kept here are those whose argument is not always `NULL` or a
block from `malloc`: after the keyboard-layout lookup and after the
device-identifier block. -/
def capabilitiesObject (build : BuildFlags) (M : MobilePlatform) : Option Fields :=
  let o : Fields := []
  if build.TIZEN_MOBILE then do
    let o := M.capabilitiesBefore o
    free (keyboardLayoutPtr M)
    let block := textureFormatFull M
    let o := SetStringPropertyValue o "openglestextureFormat" block.1
    let o := M.capabilitiesMiddle block.2 o
    let s := duidPtr M
    let o := SetStringPropertyValue o "duid" s.orEmpty
    free s
    let o := M.capabilitiesAfter o
    pure (mapAssign o "error" (Json.str ""))
  else if build.GENERIC_DESKTOP then
    some (mapAssign o "error" (Json.str "getCapabilities is not supported on desktop."))
  else
    some o

/-- The method `SystemInfoInstance::HandleGetCapabilities()`: the text handed
to `SendSyncReply`; `none` when the body does not get that far. -/
def HandleGetCapabilities (P : Platform) (build : BuildFlags) (M : MobilePlatform) :
    Option String := do
  let o ← capabilitiesObject build M
  pure (P.serialize (Json.obj o))

/-- The method `SystemInfoInstance::HandleSyncMessage(message)`: the world
afterwards and the synchronous reply, if one is sent. -/
def HandleSyncMessage (P : Platform) (build : BuildFlags) (M : MobilePlatform)
    (message : String) (w : World) : Option (World × Option String) :=
  let v := (P.parse message).1
  let err := (P.parse message).2
  if err ≠ "" then
    some ({ w with cout := w.cout ++ ["Ignoring message.\n"] }, none)
  else do
    let cmd := (← v.get "cmd").to_str
    if cmd = "getCapabilities" then
      pure (w, some (← HandleGetCapabilities P build M))
    else
      pure ({ w with cout := w.cout ++ ["Not supported sync api " ++ cmd ++ "().\n"] }, none)

/-! ## A concrete platform for the examples -/

mutual
/-- A compact JSON rendering (no escaping), the serialiser of the examples. -/
def renderJson : Json → String
  | .null => "null"
  | .bool b => if b then "true" else "false"
  | .num n => toString n
  | .str s => "\"" ++ s ++ "\""
  | .arr xs => "[" ++ renderItems xs ++ "]"
  | .obj fs => "\x7b" ++ renderFields fs ++ "\x7d"
/-- The items of an array, separated by commas. -/
def renderItems : List Json → String
  | [] => ""
  | [x] => renderJson x
  | x :: y :: xs => renderJson x ++ "," ++ renderItems (y :: xs)
/-- The fields of an object, separated by commas. -/
def renderFields : List (String × Json) → String
  | [] => ""
  | [(k, v)] => "\"" ++ k ++ "\":" ++ renderJson v
  | (k, v) :: f :: fs => "\"" ++ k ++ "\":" ++ renderJson v ++ "," ++ renderFields (f :: fs)
end

/-- The envelope {"cmd": cmd, "prop": prop, "_reply_id": id}. -/
def envelope (cmd prop id : String) : Json :=
  Json.obj [("_reply_id", Json.str id), ("cmd", Json.str cmd), ("prop", Json.str prop)]

/-- The text of the end-to-end request of the spec. -/
def batteryRequest : String :=
  "\x7b\"cmd\":\"getPropertyValue\",\"prop\":\"BATTERY\",\"_reply_id\":\"42\"\x7d"

/-- A parser stub that knows a handful of messages and reports an error on
every other text. -/
def stubParse (message : String) : Json × String :=
  if message = batteryRequest then (envelope "getPropertyValue" "BATTERY" "42", "")
  else if message = "start BATTERY" then (envelope "startListening" "BATTERY" "1", "")
  else if message = "stop BATTERY" then (envelope "stopListening" "BATTERY" "2", "")
  else if message = "no cmd" then (Json.obj [("prop", Json.str "BATTERY")], "")
  else if message = "GetPropertyValue BATTERY" then
    (envelope "GetPropertyValue" "BATTERY" "3", "")
  else (Json.null, "syntax error")

/-- Provider stubs: provider 0 (battery) reports level 80, every other
provider fails with a message of its own. -/
def stubGet : ProviderId → Json → Json → Json × Json
  | 0, error, data => (error, (SetPicoJsonObjectValue data "level" (Json.num 80)).getD data)
  | _, error, data =>
    ((SetPicoJsonObjectValue error "message" (Json.str "Get CPU failed.")).getD error, data)

/-- The platform of the examples. -/
def stubPlatform : Platform :=
  { parse := stubParse, serialize := renderJson, Get := stubGet }

/-- Providers that do not keep to the error object: provider 2 (display)
assigns an empty object to `error`, provider 3 (storage) assigns a string to
it, provider 4 (locale) stores a number as the message; every other provider
is the stub above. -/
def quirkGet : ProviderId → Json → Json → Json × Json
  | 2, _, data => (Json.obj [], data)
  | 3, _, data => (Json.str "failed", data)
  | 4, error, data => ((SetPicoJsonObjectValue error "message" (Json.num 0)).getD error, data)
  | p, error, data => stubGet p error data

/-- The platform of the examples with the providers above. -/
def quirkPlatform : Platform :=
  { parse := stubParse, serialize := renderJson, Get := quirkGet }

/-- An instance (client 7) whose registry holds DISPLAY, LOCALE and STORAGE on
the providers above. -/
def quirkInstance : SystemInfoInstance :=
  { self := 7, classes_ := [("DISPLAY", 2), ("LOCALE", 4), ("STORAGE", 3)] }

/-- An instance (client 7) whose registry holds BATTERY and CPU. -/
def stubInstance : SystemInfoInstance :=
  { self := 7, classes_ := [("BATTERY", 0), ("CPU", 1)] }

/-- The world at start: no listener, nothing posted, nothing logged. -/
def emptyWorld : World :=
  { listeners := fun _ => [], posted := [], cout := [], calls := [] }

/-- Twelve provider classes with the category names of the providers and the
providers numbered in registration order. -/
def stubClasses : ProviderClasses :=
  { SysInfoBattery := ⟨"BATTERY", 0⟩
    SysInfoBuild := ⟨"BUILD", 1⟩
    SysInfoCellularNetwork := ⟨"CELLULAR_NETWORK", 2⟩
    SysInfoCpu := ⟨"CPU", 3⟩
    SysInfoDeviceOrientation := ⟨"DEVICE_ORIENTATION", 4⟩
    SysInfoDisplay := ⟨"DISPLAY", 5⟩
    SysInfoLocale := ⟨"LOCALE", 6⟩
    SysInfoNetwork := ⟨"NETWORK", 7⟩
    SysInfoPeripheral := ⟨"PERIPHERAL", 8⟩
    SysInfoSim := ⟨"SIM", 9⟩
    SysInfoStorage := ⟨"STORAGE", 10⟩
    SysInfoWifiNetwork := ⟨"WIFI_NETWORK", 11⟩ }

/-- A freshly constructed instance (client 7): its registry is empty. -/
def freshInstance : SystemInfoInstance :=
  { self := 7, classes_ := [] }

/-- A mobile platform on which the texture formats 3dc and atc are supported,
the lookup of utc fails and the other formats are not supported; the keyboard
layout is known and there is no cache file. -/
def stubMobile : MobilePlatform :=
  { system_info_get_platform_bool := fun key =>
      if key = "tizen.org/feature/opengles.texture_format.3dc" then some true
      else if key = "tizen.org/feature/opengles.texture_format.atc" then some true
      else if key = "tizen.org/feature/opengles.texture_format.utc" then none
      else some false
    system_info_get_platform_string := fun key =>
      if key = "tizen.org/feature/input.keyboard.layout" then some "qwerty" else none
    uninitialised_s := CharPtr.notHeap ""
    system_info_cache := none
    capabilitiesBefore := fun o => mapAssign o "bluetooth" (Json.bool true)
    capabilitiesMiddle := fun _ o => mapAssign o "fmRadio" (Json.bool false)
    capabilitiesAfter := fun o => mapAssign o "profile" (Json.str "MOBILE_WEB") }

/-- The same mobile platform with a cache file that holds the device
identifier. -/
def stubMobileWithDuid : MobilePlatform :=
  { stubMobile with
    system_info_cache := some ["# cache\n", "http://tizen.org/system/duid=a1b2c3\n"] }

/-- The parser stub extended with the synchronous request. -/
def stubSyncPlatform : Platform :=
  { parse := fun message =>
      if message = "\x7b\"cmd\":\"getCapabilities\"\x7d" then
        (Json.obj [("cmd", Json.str "getCapabilities")], "")
      else stubParse message
    serialize := renderJson
    Get := stubGet }

/-! ## Helper lemmas -/

theorem mapFind_eq_none_of_forall_ne {α : Type} (m : List (String × α)) (key : String)
    (h : ∀ entry ∈ m, entry.1 ≠ key) : mapFind m key = none := by
  induction m with
  | nil => rfl
  | cons e rest ih =>
    obtain ⟨k, v⟩ := e
    have hk : key ≠ k := fun hk => h (k, v) (List.mem_cons_self _ _) hk.symm
    have hrest : ∀ entry ∈ rest, entry.1 ≠ key :=
      fun entry he => h entry (List.mem_cons_of_mem _ he)
    simp [mapFind, hk, ih hrest]

theorem Json.to_str_str (s : String) : (Json.str s).to_str = s := rfl

theorem Json.get_eq_some_iff (input : Json) (key : String) (v : Json) :
    input.get key = some v ↔ ∃ o, input = Json.obj o ∧ Fields.get o key = v := by
  cases input <;> simp [Json.get]

/-- Storing "error" in a reply that holds only "_reply_id". -/
theorem mapAssign_reply_error (r e : Json) :
    mapAssign [("_reply_id", r)] "error" e = [("_reply_id", r), ("error", e)] := by
  rfl

/-- Storing "data" in a reply that holds only "_reply_id". -/
theorem mapAssign_reply_data (r d : Json) :
    mapAssign [("_reply_id", r)] "data" d = [("_reply_id", r), ("data", d)] := by
  rfl

/-- Assignment into the empty map. -/
theorem mapAssign_nil {α : Type} (key : String) (val : α) :
    mapAssign ([] : List (String × α)) key val = [(key, val)] := by
  rfl

/-- Assignment to the first key of a map overwrites its value. -/
theorem mapAssign_head {α : Type} (key : String) (v val : α) (rest : List (String × α)) :
    mapAssign ((key, v) :: rest) key val = (key, val) :: rest := by
  simp [mapAssign]

theorem not_supported_ne_empty (p : String) : "Property not supported: " ++ p ≠ "" := by
  intro h
  have hdata := congrArg String.data h
  simp at hdata

/-- The handler on an object whose "prop" names no registered category. -/
theorem HandleGetPropertyValue_not_found (P : Platform) (inst : SystemInfoInstance)
    (o : Fields) (w : World)
    (hfind : mapFind inst.classes_ (Fields.get o "prop").to_str = none) :
    HandleGetPropertyValue P inst (Json.obj o) (Json.obj []) w =
      some { w with posted := w.posted ++ [(inst.self, P.serialize (Json.obj
        [("_reply_id", Json.str (Fields.get o "_reply_id").to_str),
         ("error", Json.obj [("message",
            Json.str ("Property not supported: " ++ (Fields.get o "prop").to_str))])]))] } := by
  have hne : (Fields.get [("message",
      Json.str ("Property not supported: " ++ (Fields.get o "prop").to_str))] "message").to_str
      ≠ "" := by
    simp [Fields.get, mapFind, Json.to_str, not_supported_ne_empty]
  simp only [HandleGetPropertyValue, Json.get, SetPicoJsonObjectValue, hfind, mapAssign_nil,
    mapAssign_head, mapAssign_reply_error, PostMessage, Option.bind_eq_bind, Option.some_bind,
    Option.pure_def, hne, ne_eq, not_false_eq_true, if_true]

/-- The handler on an object whose "prop" names a registered category, when
the provider's `Get`, called on the error object {"message": ""} and the empty
data object, leaves `error` an object: the reply carries that object as
"error" when the text of its message is not empty, and otherwise the value of
`data` as "data". -/
theorem HandleGetPropertyValue_found (P : Platform) (inst : SystemInfoInstance)
    (o : Fields) (w : World) (p : ProviderId) (e : Fields)
    (hfind : mapFind inst.classes_ (Fields.get o "prop").to_str = some p)
    (hget : (P.Get p (Json.obj [("message", Json.str "")]) (Json.obj [])).1 = Json.obj e) :
    HandleGetPropertyValue P inst (Json.obj o) (Json.obj []) w =
      some { w with
        posted := w.posted ++ [(inst.self, P.serialize (Json.obj
          [("_reply_id", Json.str (Fields.get o "_reply_id").to_str),
           if (Fields.get e "message").to_str ≠ "" then ("error", Json.obj e)
           else ("data", (P.Get p (Json.obj [("message", Json.str "")]) (Json.obj [])).2)]))]
        calls := w.calls ++ [ProviderCall.Get p] } := by
  by_cases hmsg : (Fields.get e "message").to_str = ""
  · simp only [HandleGetPropertyValue, Json.get, SetPicoJsonObjectValue, hfind, mapAssign_nil,
      hget, mapAssign_reply_data, PostMessage, Option.bind_eq_bind, Option.some_bind,
      Option.pure_def, hmsg, ne_eq, not_true_eq_false, if_false]
  · simp only [HandleGetPropertyValue, Json.get, SetPicoJsonObjectValue, hfind, mapAssign_nil,
      hget, mapAssign_reply_error, PostMessage, Option.bind_eq_bind, Option.some_bind,
      Option.pure_def, hmsg, ne_eq, not_false_eq_true, if_true]

/-- The handler on an object whose "prop" names a registered category, when
the provider's `Get` leaves in `error` a value that is not an object: reading
its "message" fails and nothing is posted. -/
theorem HandleGetPropertyValue_found_not_object (P : Platform) (inst : SystemInfoInstance)
    (o : Fields) (w : World) (p : ProviderId)
    (hfind : mapFind inst.classes_ (Fields.get o "prop").to_str = some p)
    (hget : ∀ e, (P.Get p (Json.obj [("message", Json.str "")]) (Json.obj [])).1 ≠ Json.obj e) :
    HandleGetPropertyValue P inst (Json.obj o) (Json.obj []) w = none := by
  have hnone : Json.get (P.Get p (Json.obj [("message", Json.str "")]) (Json.obj [])).1
      "message" = none := by
    cases h : (P.Get p (Json.obj [("message", Json.str "")]) (Json.obj [])).1 with
    | obj e => exact absurd h (hget e)
    | _ => rfl
  simp only [HandleGetPropertyValue, Json.get, SetPicoJsonObjectValue, hfind, mapAssign_nil,
    Option.bind_eq_bind, Option.some_bind, Option.pure_def]
  simp only [hnone, Option.none_bind]

/-- Start-listening on an object whose "prop" names a registered category. -/
theorem HandleStartListening_found (inst : SystemInfoInstance) (o : Fields) (w : World)
    (p : ProviderId) (hfind : mapFind inst.classes_ (Fields.get o "prop").to_str = some p) :
    HandleStartListening inst (Json.obj o) w = some (AddListener p inst.self w) := by
  simp only [HandleStartListening, Json.get, hfind, Option.bind_eq_bind, Option.some_bind,
    Option.pure_def]

/-- Stop-listening on an object whose "prop" names a registered category. -/
theorem HandleStopListening_found (inst : SystemInfoInstance) (o : Fields) (w : World)
    (p : ProviderId) (hfind : mapFind inst.classes_ (Fields.get o "prop").to_str = some p) :
    HandleStopListening inst (Json.obj o) w = some (RemoveListener p inst.self w) := by
  simp only [HandleStopListening, Json.get, hfind, Option.bind_eq_bind, Option.some_bind,
    Option.pure_def]

/-- Start-listening on an object whose "prop" names no registered category. -/
theorem HandleStartListening_not_found (inst : SystemInfoInstance) (o : Fields) (w : World)
    (hfind : mapFind inst.classes_ (Fields.get o "prop").to_str = none) :
    HandleStartListening inst (Json.obj o) w = some w := by
  simp only [HandleStartListening, Json.get, hfind, Option.bind_eq_bind, Option.some_bind,
    Option.pure_def]

/-- Stop-listening on an object whose "prop" names no registered category. -/
theorem HandleStopListening_not_found (inst : SystemInfoInstance) (o : Fields) (w : World)
    (hfind : mapFind inst.classes_ (Fields.get o "prop").to_str = none) :
    HandleStopListening inst (Json.obj o) w = some w := by
  simp only [HandleStopListening, Json.get, hfind, Option.bind_eq_bind, Option.some_bind,
    Option.pure_def]

/-- The deliveries of one provider change to `client`: one copy of the event
per occurrence of `client` in the listener list. -/
theorem deliveries_eq_replicate (client : InstanceId) (event : String)
    (ls : List InstanceId) :
    ((ls.map (fun c => (c, event))).filter (fun m => decide (m.1 = client))).map Prod.snd =
      List.replicate (ls.count client) event := by
  induction ls with
  | nil => rfl
  | cons c rest ih =>
    by_cases hc : c = client
    · subst hc
      simp [List.filter_cons, List.replicate_succ, ih]
    · have hc' : ¬ (c == client) = true := by simpa using hc
      simp [List.filter_cons, hc, List.count_cons, hc', ih]

/-- What a client receives from one provider change. -/
theorem postedTo_providerChange (client : InstanceId) (p : ProviderId) (event : String)
    (w : World) :
    postedTo client (providerChange p event w) =
      postedTo client w ++ List.replicate ((w.listeners p).count client) event := by
  simp only [postedTo, providerChange, List.filter_append, List.map_append,
    deliveries_eq_replicate]

/-- A listener list without `client` is left as it is by the removal filter. -/
theorem filter_ne_of_not_mem (client : InstanceId) (ls : List InstanceId)
    (h : client ∉ ls) : ls.filter (fun c => decide (c ≠ client)) = ls := by
  apply List.filter_eq_self.2
  intro c hc
  have : c ≠ client := fun hcc => h (hcc ▸ hc)
  simpa using this

/-- After the removal filter `client` is not in the list. -/
theorem not_mem_filter_ne (client : InstanceId) (ls : List InstanceId) :
    client ∉ ls.filter (fun c => decide (c ≠ client)) := by
  simp [List.mem_filter]

/-- The listener lists after the destructor's loop over the entries `l`. -/
theorem destroy_loop_listeners (self : InstanceId) (l : List (String × ProviderId)) :
    ∀ (w : World) (q : ProviderId),
      (l.foldl (fun acc entry => RemoveListener entry.2 self acc) w).listeners q =
        if q ∈ l.map Prod.snd then (w.listeners q).filter (fun c => decide (c ≠ self))
        else w.listeners q := by
  induction l with
  | nil => intro w q; simp
  | cons e rest ih =>
    intro w q
    rw [List.foldl_cons, ih]
    by_cases hq : q = e.2
    · subst hq
      simp [RemoveListener, List.filter_filter]
    · have hstep : (RemoveListener e.2 self w).listeners q = w.listeners q := by
        simp [RemoveListener, Function.update_noteq hq]
      rw [hstep]
      by_cases hm : q ∈ rest.map Prod.snd
      · have hm' : q ∈ (e :: rest).map Prod.snd := by
          rw [List.map_cons]; exact List.mem_cons_of_mem _ hm
        rw [if_pos hm, if_pos hm']
      · have hm' : q ∉ (e :: rest).map Prod.snd := by
          rw [List.map_cons, List.mem_cons]
          exact fun h => h.elim hq hm
        rw [if_neg hm, if_neg hm']

/-- The posted messages, the output and the call log after the destructor's
loop over the entries `l`. -/
theorem destroy_loop_frame (self : InstanceId) (l : List (String × ProviderId)) :
    ∀ (w : World),
      (l.foldl (fun acc entry => RemoveListener entry.2 self acc) w).posted = w.posted
      ∧ (l.foldl (fun acc entry => RemoveListener entry.2 self acc) w).cout = w.cout
      ∧ (l.foldl (fun acc entry => RemoveListener entry.2 self acc) w).calls =
          w.calls ++ l.map (fun entry => ProviderCall.RemoveListener entry.2 self) := by
  induction l with
  | nil => intro w; simp
  | cons e rest ih =>
    intro w
    rw [List.foldl_cons]
    obtain ⟨h1, h2, h3⟩ := ih (RemoveListener e.2 self w)
    refine ⟨by rw [h1]; rfl, by rw [h2]; rfl, ?_⟩
    rw [h3]
    simp [RemoveListener]

/-- Provider changes on providers that do not list `client` deliver nothing
to it. -/
theorem postedTo_providerChanges (client : InstanceId) (changes : List (ProviderId × String)) :
    ∀ (w : World), (∀ ch ∈ changes, client ∉ w.listeners ch.1) →
      postedTo client (providerChanges changes w) = postedTo client w := by
  induction changes with
  | nil => intro w _; rfl
  | cons ch rest ih =>
    intro w h
    have hch : client ∉ w.listeners ch.1 := h ch (List.mem_cons_self _ _)
    have hrest : ∀ c ∈ rest, client ∉ (providerChange ch.1 ch.2 w).listeners c.1 :=
      fun c hc => h c (List.mem_cons_of_mem _ hc)
    have hstep := ih (providerChange ch.1 ch.2 w) hrest
    simp only [providerChanges, List.foldl_cons] at hstep ⊢
    rw [hstep, postedTo_providerChange, List.count_eq_zero_of_not_mem hch]
    simp

/-- The listener list of provider `p` after `AddListener p client`. -/
theorem AddListener_listeners_self (p : ProviderId) (client : InstanceId) (w : World) :
    (AddListener p client w).listeners p =
      if client ∈ w.listeners p then w.listeners p else w.listeners p ++ [client] := by
  simp [AddListener]

/-- After `AddListener p client` the client is in the listener list of `p`. -/
theorem mem_AddListener (p : ProviderId) (client : InstanceId) (w : World) :
    client ∈ (AddListener p client w).listeners p := by
  rw [AddListener_listeners_self]
  by_cases h : client ∈ w.listeners p
  · rw [if_pos h]; exact h
  · rw [if_neg h]; simp

/-- Adding `client` a second time leaves every listener list as it is. -/
theorem AddListener_twice_listeners (p : ProviderId) (client : InstanceId) (w : World) :
    (AddListener p client (AddListener p client w)).listeners =
      (AddListener p client w).listeners := by
  have hmem := mem_AddListener p client w
  funext q
  by_cases hq : q = p
  · subst hq
    rw [AddListener_listeners_self q client (AddListener q client w), if_pos hmem]
  · simp [AddListener, Function.update_noteq hq]

/-- Adding `client` to a list that holds it at most once gives a list that
holds it exactly once. -/
theorem count_AddListener (p : ProviderId) (client : InstanceId) (w : World)
    (hinv : (w.listeners p).count client ≤ 1) :
    ((AddListener p client w).listeners p).count client = 1 := by
  rw [AddListener_listeners_self]
  by_cases h : client ∈ w.listeners p
  · rw [if_pos h]
    have hpos := List.count_pos_iff.2 h
    omega
  · rw [if_neg h, List.count_append, List.count_eq_zero_of_not_mem h]
    simp

/-! ### The registry as a `std::map` -/

/-- The order on keys is the order of strings. -/
theorem data_lt_iff (a b : String) : a.data < b.data ↔ a < b := by
  rw [String.lt_iff_toList_lt]; rfl

theorem data_lt_irrefl (a : String) : ¬ a.data < a.data := by
  rw [data_lt_iff]; exact lt_irrefl a

theorem data_lt_asymm {a b : String} (h : a.data < b.data) : ¬ b.data < a.data := by
  rw [data_lt_iff] at h ⊢; exact lt_asymm h

theorem data_lt_trans {a b c : String} (h1 : a.data < b.data) (h2 : b.data < c.data) :
    a.data < c.data := by
  rw [data_lt_iff] at h1 h2 ⊢; exact lt_trans h1 h2

theorem data_lt_of_ne_of_not_lt {a b : String} (hne : a ≠ b) (h : ¬ a.data < b.data) :
    b.data < a.data := by
  rw [data_lt_iff] at h ⊢
  rcases lt_trichotomy a b with h1 | h1 | h1
  · exact absurd h1 h
  · exact absurd h1 hne
  · exact h1

/-- A key that `mapFind` finds is the key of an entry. -/
theorem exists_mem_of_mapFind {α : Type} (m : List (String × α)) (key : String) (q : α)
    (h : mapFind m key = some q) : (key, q) ∈ m := by
  induction m with
  | nil => simp [mapFind] at h
  | cons e rest ih =>
    obtain ⟨k, v⟩ := e
    by_cases hk : key = k
    · subst hk
      simp [mapFind] at h
      subst h
      exact List.mem_cons_self _ _
    · simp [mapFind, hk] at h
      exact List.mem_cons_of_mem _ (ih h)

/-- The entries after an insertion are the old entries and the new pair. -/
theorem mem_mapInsert {α : Type} (m : List (String × α)) (key : String) (val : α)
    (b : String × α) (h : b ∈ mapInsert m key val) : b ∈ m ∨ b = (key, val) := by
  induction m with
  | nil =>
    simp [mapInsert] at h
    exact Or.inr h
  | cons e rest ih =>
    obtain ⟨k, v⟩ := e
    by_cases hk : key = k
    · simp [mapInsert, hk] at h
      exact Or.inl (by simpa using h)
    · by_cases hlt : key.data < k.data
      · simp only [mapInsert, hk, hlt, if_true, if_false, List.mem_cons] at h
        rcases h with h | h | h
        · exact Or.inr h
        · exact Or.inl (h ▸ List.mem_cons_self _ _)
        · exact Or.inl (List.mem_cons_of_mem _ h)
      · simp only [mapInsert, hk, hlt, if_false, List.mem_cons] at h
        rcases h with h | h
        · exact Or.inl (h ▸ List.mem_cons_self _ _)
        · rcases ih h with h' | h'
          · exact Or.inl (List.mem_cons_of_mem _ h')
          · exact Or.inr h'

/-- Insertion keeps the keys strictly increasing. -/
theorem keysSorted_mapInsert {α : Type} (m : List (String × α)) (key : String) (val : α)
    (hs : keysSorted m) : keysSorted (mapInsert m key val) := by
  induction m with
  | nil => simp [mapInsert, keysSorted]
  | cons e rest ih =>
    obtain ⟨k, v⟩ := e
    have hs' := hs
    unfold keysSorted at hs'
    rw [List.pairwise_cons] at hs'
    obtain ⟨hhead, htail⟩ := hs'
    by_cases hk : key = k
    · simpa [mapInsert, hk] using hs
    · by_cases hlt : key.data < k.data
      · simp only [mapInsert, hk, hlt, if_true, if_false]
        unfold keysSorted
        rw [List.pairwise_cons]
        refine ⟨?_, hs⟩
        intro b hb
        rcases List.mem_cons.1 hb with hb | hb
        · subst hb; exact hlt
        · exact data_lt_trans hlt (hhead b hb)
      · simp only [mapInsert, hk, hlt, if_false]
        unfold keysSorted
        rw [List.pairwise_cons]
        refine ⟨?_, ih htail⟩
        intro b hb
        rcases mem_mapInsert rest key val b hb with hb | hb
        · exact hhead b hb
        · subst hb
          exact data_lt_of_ne_of_not_lt hk hlt

/-- Inserting a key that is present leaves a sorted map as it is. -/
theorem mapInsert_of_mapFind_some {α : Type} (m : List (String × α)) (key : String)
    (val q : α) (hs : keysSorted m) (h : mapFind m key = some q) :
    mapInsert m key val = m := by
  induction m with
  | nil => simp [mapFind] at h
  | cons e rest ih =>
    obtain ⟨k, v⟩ := e
    unfold keysSorted at hs
    rw [List.pairwise_cons] at hs
    obtain ⟨hhead, htail⟩ := hs
    by_cases hk : key = k
    · simp [mapInsert, hk]
    · simp only [mapFind, hk, if_false] at h
      have hlt : ¬ key.data < k.data :=
        data_lt_asymm (hhead (key, q) (exists_mem_of_mapFind rest key q h))
      simp only [mapInsert, hk, hlt, if_false, ih htail h]

/-- Inserting a key that is absent makes it map to the new value. -/
theorem mapFind_mapInsert_of_none {α : Type} (m : List (String × α)) (key : String)
    (val : α) (h : mapFind m key = none) : mapFind (mapInsert m key val) key = some val := by
  induction m with
  | nil => simp [mapInsert, mapFind]
  | cons e rest ih =>
    obtain ⟨k, v⟩ := e
    by_cases hk : key = k
    · simp [mapFind, hk] at h
    · simp only [mapFind, hk, if_false] at h
      by_cases hlt : key.data < k.data
      · simp [mapInsert, hk, hlt, mapFind]
      · simp [mapInsert, hk, hlt, mapFind, ih h]

/-- Insertion of one key does not change what another key maps to. -/
theorem mapFind_mapInsert_of_ne {α : Type} (m : List (String × α)) (key other : String)
    (val : α) (hne : other ≠ key) :
    mapFind (mapInsert m key val) other = mapFind m other := by
  induction m with
  | nil => simp [mapInsert, mapFind, hne]
  | cons e rest ih =>
    obtain ⟨k, v⟩ := e
    by_cases hk : key = k
    · simp [mapInsert, hk]
    · by_cases hlt : key.data < k.data
      · simp [mapInsert, hk, hlt, mapFind, hne]
      · simp [mapInsert, hk, hlt, mapFind, ih]

/-- What a key maps to after an insertion into a sorted map: the value it had,
or the new value when it had none. -/
theorem mapFind_mapInsert {α : Type} (m : List (String × α)) (key other : String)
    (val : α) (hs : keysSorted m) :
    mapFind (mapInsert m key val) other =
      (mapFind m other).orElse (fun _ => if other = key then some val else none) := by
  by_cases hne : other = key
  · subst hne
    cases h : mapFind m other with
    | none => simp [mapFind_mapInsert_of_none m other val h]
    | some q => simp [mapInsert_of_mapFind_some m other val q hs h, h]
  · rw [mapFind_mapInsert_of_ne m key other val hne]
    cases mapFind m other <;> simp [hne]

/-- The initialisation registers the twelve classes in order. -/
theorem InstancesMapInitialize_eq_registerAll (T : ProviderClasses) (inst : SystemInfoInstance) :
    InstancesMapInitialize T inst = registerAll (registrationOrder T) inst := rfl

/-- Registration keeps the keys of the registry strictly increasing. -/
theorem keysSorted_registerAll (l : List ProviderClass) :
    ∀ inst : SystemInfoInstance, keysSorted inst.classes_ →
      keysSorted (registerAll l inst).classes_ := by
  induction l with
  | nil => intro inst h; exact h
  | cons T rest ih =>
    intro inst h
    exact ih (RegisterClass T inst) (keysSorted_mapInsert inst.classes_ _ _ h)

/-- What a name maps to after a list of registrations: what it mapped to
before, or else the provider of the first class registered under it. -/
theorem mapFind_registerAll (l : List ProviderClass) (name : String) :
    ∀ inst : SystemInfoInstance, keysSorted inst.classes_ →
      mapFind (registerAll l inst).classes_ name =
        (mapFind inst.classes_ name).orElse (fun _ => firstRegistered l name) := by
  induction l with
  | nil =>
    intro inst _
    cases h : mapFind inst.classes_ name <;> simp [registerAll, firstRegistered, h]
  | cons T rest ih =>
    intro inst hs
    have hstep := ih (RegisterClass T inst) (keysSorted_mapInsert inst.classes_ _ _ hs)
    have hreg : registerAll (T :: rest) inst = registerAll rest (RegisterClass T inst) := rfl
    rw [hreg, hstep]
    simp only [RegisterClass]
    rw [mapFind_mapInsert inst.classes_ T.name_ name T.GetInstance hs]
    by_cases hT : T.name_ = name
    · subst hT
      cases h : mapFind inst.classes_ T.name_ <;>
        simp [firstRegistered, List.find?_cons]
    · have hT' : ¬ name = T.name_ := fun h => hT h.symm
      cases h : mapFind inst.classes_ name <;>
        simp [firstRegistered, List.find?_cons, hT, hT']

/-- With pairwise distinct names the first class registered under the name of
a class is that class. -/
theorem firstRegistered_of_nodup (l : List ProviderClass)
    (hnodup : (l.map (fun T => T.name_)).Nodup) (C : ProviderClass) (hC : C ∈ l) :
    firstRegistered l C.name_ = some C.GetInstance := by
  induction l with
  | nil => simp at hC
  | cons T rest ih =>
    rw [List.map_cons, List.nodup_cons] at hnodup
    obtain ⟨hnot, hrest⟩ := hnodup
    rcases List.mem_cons.1 hC with h | h
    · subst h
      simp [firstRegistered, List.find?_cons]
    · have hne : ¬ T.name_ = C.name_ := by
        intro heq
        exact hnot (heq ▸ List.mem_map_of_mem (fun T => T.name_) h)
      have hrec := ih hrest h
      simp only [firstRegistered, List.find?_cons, hne, decide_False] at hrec ⊢
      exact hrec

/-- Every class of a registration order has a first class registered under
its name. -/
theorem firstRegistered_isSome (l : List ProviderClass) (C : ProviderClass) (hC : C ∈ l) :
    ∃ q, firstRegistered l C.name_ = some q := by
  induction l with
  | nil => simp at hC
  | cons T rest ih =>
    by_cases hT : T.name_ = C.name_
    · exact ⟨T.GetInstance, by simp [firstRegistered, List.find?_cons, hT]⟩
    · rcases List.mem_cons.1 hC with h | h
      · exact absurd (h ▸ rfl) hT
      · obtain ⟨q, hq⟩ := ih h
        refine ⟨q, ?_⟩
        simp only [firstRegistered, List.find?_cons, hT, decide_False] at hq ⊢
        exact hq

/-- A key that a sorted map finds occurs exactly once among its keys. -/
theorem count_key_eq_one {α : Type} (m : List (String × α)) (key : String) (q : α)
    (hs : keysSorted m) (h : mapFind m key = some q) :
    (m.map Prod.fst).count key = 1 := by
  have hnodup : (m.map Prod.fst).Nodup := by
    unfold List.Nodup
    rw [List.pairwise_map]
    refine List.Pairwise.imp ?_ hs
    intro a b hab heq
    rw [heq] at hab
    exact data_lt_irrefl _ hab
  exact List.count_eq_one_of_mem hnodup
    (List.mem_map_of_mem Prod.fst (exists_mem_of_mapFind m key q h))

/-! ### The capability snapshot -/

/-- A key maps to the value just assigned to it. -/
theorem mapFind_mapAssign_self {α : Type} (m : List (String × α)) (key : String) (val : α) :
    mapFind (mapAssign m key val) key = some val := by
  induction m with
  | nil => simp [mapAssign, mapFind]
  | cons e rest ih =>
    obtain ⟨k, v⟩ := e
    by_cases hk : key = k
    · simp [mapAssign, hk, mapFind]
    · by_cases hlt : key.data < k.data
      · simp [mapAssign, hk, hlt, mapFind]
      · simp [mapAssign, hk, hlt, mapFind, ih]

/-- The synchronous handler on a message that parses to the getCapabilities
request: the reply is the serialised capability object, when the body of
`HandleGetCapabilities` gets as far as `SendSyncReply`. -/
theorem HandleSyncMessage_getCapabilities (P : Platform) (build : BuildFlags)
    (M : MobilePlatform) (message : String) (v : Json) (w : World)
    (hparse : P.parse message = (v, ""))
    (hcmd : v.get "cmd" = some (Json.str "getCapabilities")) :
    HandleSyncMessage P build M message w =
      (capabilitiesObject build M).map (fun o => (w, some (P.serialize (Json.obj o)))) := by
  simp only [HandleSyncMessage, hparse, hcmd, ne_eq, not_true_eq_false, if_false,
    Option.bind_eq_bind, Option.some_bind, Json.to_str_str, if_true, Option.pure_def,
    HandleGetCapabilities]
  cases capabilitiesObject build M <;> rfl

/-- On the desktop build the capability object is the single field "error". -/
theorem capabilitiesObject_desktop (build : BuildFlags) (M : MobilePlatform)
    (hmobile : build.TIZEN_MOBILE = false) (hdesktop : build.GENERIC_DESKTOP = true) :
    capabilitiesObject build M =
      some [("error", Json.str "getCapabilities is not supported on desktop.")] := by
  simp only [capabilitiesObject, hmobile, hdesktop, if_true, mapAssign_nil]
  rfl

/-- On the mobile build the body gets to the end exactly when both `free(s)`
calls are given a pointer they are defined for, and then "error" is the empty
string. -/
theorem capabilitiesObject_mobile (build : BuildFlags) (M : MobilePlatform)
    (hmobile : build.TIZEN_MOBILE = true) :
    (free (keyboardLayoutPtr M) = some () → free (duidPtr M) = some () →
        ∃ o, capabilitiesObject build M = some o ∧ mapFind o "error" = some (Json.str ""))
      ∧ (free (keyboardLayoutPtr M) = none ∨ free (duidPtr M) = none →
        capabilitiesObject build M = none) := by
  constructor
  · intro h1 h2
    refine ⟨mapAssign (M.capabilitiesAfter (SetStringPropertyValue
      (M.capabilitiesMiddle (textureFormatFull M).2 (SetStringPropertyValue
        (M.capabilitiesBefore []) "openglestextureFormat" (textureFormatFull M).1))
      "duid" (duidPtr M).orEmpty)) "error" (Json.str ""), ?_,
      mapFind_mapAssign_self _ "error" (Json.str "")⟩
    simp only [capabilitiesObject, hmobile, if_true, h1, h2, Option.bind_eq_bind,
      Option.some_bind, Option.pure_def]
  · intro h
    rcases h with h | h
    · simp only [capabilitiesObject, hmobile, if_true, h, Option.bind_eq_bind,
        Option.none_bind]
    · cases h1 : free (keyboardLayoutPtr M) <;>
        simp only [capabilitiesObject, hmobile, if_true, h, h1, Option.bind_eq_bind,
          Option.none_bind, Option.some_bind]

/-- The texture-format block agrees with the joined list of supported names
unless 3dc is the first supported format and atc or pvrtc is supported too. -/
theorem textureFormatBlock_eq_joined (utc ptc etc tdc atc pvrtc : Bool)
    (h : utc = true ∨ ptc = true ∨ etc = true ∨ tdc = false
      ∨ (atc = false ∧ pvrtc = false)) :
    (textureFormatBlock utc ptc etc tdc atc pvrtc).1 =
      joinedTextureFormats utc ptc etc tdc atc pvrtc := by
  cases utc <;> cases ptc <;> cases etc <;> cases tdc <;> cases atc <;> cases pvrtc <;>
    first
    | rfl
    | (exfalso; simp at h)

/-! ## Claims -/

/-- C1: a getPropertyValue request whose "prop" string `p` is the name of no
registered category (exact, case-sensitive comparison) and whose "_reply_id" is
the string `R` makes `HandleGetPropertyValue` post exactly one reply, the
object with "_reply_id" = `R` and "error" = {"message": "Property not
supported: " ++ p}; the reply has no "data" field and no provider operation is
invoked (the call log is unchanged). -/
theorem getPropertyValue_unregistered (P : Platform) (inst : SystemInfoInstance)
    (input : Json) (p R : String) (w : World)
    (hprop : input.get "prop" = some (Json.str p))
    (hid : input.get "_reply_id" = some (Json.str R))
    (hunreg : ∀ entry ∈ inst.classes_, entry.1 ≠ p) :
    HandleGetPropertyValue P inst input (Json.obj []) w =
        some { w with posted := w.posted ++ [(inst.self, P.serialize (Json.obj
          [("_reply_id", Json.str R),
           ("error", Json.obj [("message", Json.str ("Property not supported: " ++ p))])]))] }
      ∧ mapFind [("_reply_id", Json.str R),
           ("error", Json.obj [("message", Json.str ("Property not supported: " ++ p))])]
          "data" = none := by
  refine ⟨?_, by simp [mapFind]⟩
  obtain ⟨o, rfl, hR⟩ := (Json.get_eq_some_iff _ _ _).1 hid
  obtain ⟨_, ho, hp⟩ := (Json.get_eq_some_iff _ _ _).1 hprop
  cases ho
  have hfind : mapFind inst.classes_ (Fields.get o "prop").to_str = none := by
    rw [hp]; exact mapFind_eq_none_of_forall_ne inst.classes_ p hunreg
  have hrun := HandleGetPropertyValue_not_found P inst o w hfind
  rw [hR, hp] at hrun
  simp only [Json.to_str_str] at hrun
  exact hrun

/-- C1 at a concrete input: the category "FOO" with reply id "9" on the example
instance. -/
theorem getPropertyValue_unregistered_witness :
    (∀ entry ∈ stubInstance.classes_, entry.1 ≠ "FOO")
      ∧ (HandleGetPropertyValue stubPlatform stubInstance
            (envelope "getPropertyValue" "FOO" "9") (Json.obj []) emptyWorld =
          some { emptyWorld with posted := emptyWorld.posted ++ [(stubInstance.self,
            stubPlatform.serialize (Json.obj
              [("_reply_id", Json.str "9"),
               ("error", Json.obj [("message",
                  Json.str ("Property not supported: " ++ "FOO"))])]))] }
        ∧ mapFind [("_reply_id", Json.str "9"),
             ("error", Json.obj [("message", Json.str ("Property not supported: " ++ "FOO"))])]
            "data" = none) :=
  ⟨by decide,
   getPropertyValue_unregistered stubPlatform stubInstance
     (envelope "getPropertyValue" "FOO" "9") "FOO" "9" emptyWorld rfl rfl (by decide)⟩

/-- C2, counterexample: the display provider of the examples assigns an empty
object to `error`.  The text the code reads as its message is "null", which is
not empty, so the reply posted for "DISPLAY" is {"_reply_id":"5","error":{}}:
"error" is present and has no message at all.  The locale provider stores the
number 0 as the message, and the reply carries "error" with that number as its
message, not a text. -/
theorem getPropertyValue_error_without_message :
    (quirkPlatform.Get 2 (Json.obj [("message", Json.str "")]) (Json.obj [])).1 = Json.obj []
      ∧ mapFind ([] : Fields) "message" = none
      ∧ (HandleGetPropertyValue quirkPlatform quirkInstance
          (envelope "getPropertyValue" "DISPLAY" "5") (Json.obj []) emptyWorld).map
            (fun w => w.posted) =
          some [(7, "\x7b\"_reply_id\":\"5\",\"error\":\x7b\x7d\x7d")]
      ∧ (HandleGetPropertyValue quirkPlatform quirkInstance
          (envelope "getPropertyValue" "LOCALE" "6") (Json.obj []) emptyWorld).map
            (fun w => w.posted) =
          some [(7, "\x7b\"_reply_id\":\"6\",\"error\":\x7b\"message\":0\x7d\x7d")] := by
  refine ⟨rfl, rfl, by decide, by decide⟩

/-- C2, amended: for a getPropertyValue request with string "_reply_id" `R`
and "prop" `v`, read as the category `v.to_str`:
* an unregistered category gives exactly one reply, {"_reply_id": R, "error":
  {"message": "Property not supported: " ++ category}};
* a registered category whose provider's `Get` leaves in `error` an object `e`
  gives exactly one reply: {"_reply_id": R, "error": e} when the text of the
  message of `e` (`get("message").to_str()`, which is "null" when `e` has no
  message) is not empty, and {"_reply_id": R, "data": d}, with `d` the value
  left in `data`, when that text is empty;
* a registered category whose provider's `Get` leaves in `error` a value that
  is not an object gives no reply.
So every reply has "_reply_id" = `R` and exactly one of "data" and "error";
the message of "error", when it is a string, is not empty. -/
theorem getPropertyValue_reply_shape (P : Platform) (inst : SystemInfoInstance)
    (input v : Json) (R : String) (w : World)
    (hid : input.get "_reply_id" = some (Json.str R))
    (hprop : input.get "prop" = some v) :
    (mapFind inst.classes_ v.to_str = none →
        HandleGetPropertyValue P inst input (Json.obj []) w =
          some { w with posted := w.posted ++ [(inst.self, P.serialize (Json.obj
            [("_reply_id", Json.str R),
             ("error", Json.obj [("message",
                Json.str ("Property not supported: " ++ v.to_str))])]))] })
      ∧ (∀ (p : ProviderId) (e : Fields), mapFind inst.classes_ v.to_str = some p →
          (P.Get p (Json.obj [("message", Json.str "")]) (Json.obj [])).1 = Json.obj e →
          ((Fields.get e "message").to_str ≠ "" →
            HandleGetPropertyValue P inst input (Json.obj []) w =
              some { w with
                posted := w.posted ++ [(inst.self, P.serialize (Json.obj
                  [("_reply_id", Json.str R), ("error", Json.obj e)]))]
                calls := w.calls ++ [ProviderCall.Get p] })
          ∧ ((Fields.get e "message").to_str = "" →
            HandleGetPropertyValue P inst input (Json.obj []) w =
              some { w with
                posted := w.posted ++ [(inst.self, P.serialize (Json.obj
                  [("_reply_id", Json.str R),
                   ("data", (P.Get p (Json.obj [("message", Json.str "")])
                      (Json.obj [])).2)]))]
                calls := w.calls ++ [ProviderCall.Get p] })
          ∧ (∀ M : String, Fields.get e "message" = Json.str M →
              ((Fields.get e "message").to_str ≠ "" ↔ M ≠ "")))
      ∧ (∀ p : ProviderId, mapFind inst.classes_ v.to_str = some p →
          (∀ e, (P.Get p (Json.obj [("message", Json.str "")]) (Json.obj [])).1 ≠ Json.obj e) →
          HandleGetPropertyValue P inst input (Json.obj []) w = none) := by
  obtain ⟨o, rfl, hR⟩ := (Json.get_eq_some_iff _ _ _).1 hid
  obtain ⟨_, ho, hv⟩ := (Json.get_eq_some_iff _ _ _).1 hprop
  cases ho
  refine ⟨?_, ?_, ?_⟩
  · intro hfind
    have hrun := HandleGetPropertyValue_not_found P inst o w (by rw [hv]; exact hfind)
    rw [hR, hv] at hrun
    simp only [Json.to_str_str] at hrun
    exact hrun
  · intro p e hfind hget
    have hrun := HandleGetPropertyValue_found P inst o w p e (by rw [hv]; exact hfind) hget
    rw [hR] at hrun
    simp only [Json.to_str_str] at hrun
    refine ⟨?_, ?_, ?_⟩
    · intro hmsg
      simp only [hmsg, ne_eq, not_false_eq_true, if_true] at hrun
      exact hrun
    · intro hmsg
      simp only [hmsg, ne_eq, not_true_eq_false, if_false] at hrun
      exact hrun
    · intro M hM
      rw [hM, Json.to_str_str]
  · intro p hfind hget
    exact HandleGetPropertyValue_found_not_object P inst o w p (by rw [hv]; exact hfind) hget

/-- C2, amended, at concrete inputs: the CPU provider of the examples (an
error with a message), the battery provider (data), the unregistered category
"FOO", and the storage provider, which assigns a string to `error`. -/
theorem getPropertyValue_reply_shape_witness :
    (HandleGetPropertyValue stubPlatform stubInstance
          (envelope "getPropertyValue" "CPU" "5") (Json.obj []) emptyWorld =
        some { emptyWorld with
          posted := emptyWorld.posted ++ [(stubInstance.self, stubPlatform.serialize (Json.obj
            [("_reply_id", Json.str "5"),
             ("error", Json.obj [("message", Json.str "Get CPU failed.")])]))]
          calls := emptyWorld.calls ++ [ProviderCall.Get 1] })
      ∧ (HandleGetPropertyValue stubPlatform stubInstance
          (envelope "getPropertyValue" "BATTERY" "42") (Json.obj []) emptyWorld =
        some { emptyWorld with
          posted := emptyWorld.posted ++ [(stubInstance.self, stubPlatform.serialize (Json.obj
            [("_reply_id", Json.str "42"),
             ("data", (stubPlatform.Get 0 (Json.obj [("message", Json.str "")])
                (Json.obj [])).2)]))]
          calls := emptyWorld.calls ++ [ProviderCall.Get 0] })
      ∧ (HandleGetPropertyValue stubPlatform stubInstance
          (envelope "getPropertyValue" "FOO" "9") (Json.obj []) emptyWorld =
        some { emptyWorld with posted := emptyWorld.posted ++ [(stubInstance.self,
          stubPlatform.serialize (Json.obj
            [("_reply_id", Json.str "9"),
             ("error", Json.obj [("message",
                Json.str ("Property not supported: " ++ (Json.str "FOO").to_str))])]))] })
      ∧ HandleGetPropertyValue quirkPlatform quirkInstance
          (envelope "getPropertyValue" "STORAGE" "8") (Json.obj []) emptyWorld = none :=
  ⟨((getPropertyValue_reply_shape stubPlatform stubInstance
      (envelope "getPropertyValue" "CPU" "5") (Json.str "CPU") "5" emptyWorld rfl rfl).2.1
      1 [("message", Json.str "Get CPU failed.")] rfl rfl).1 (by decide),
   ((getPropertyValue_reply_shape stubPlatform stubInstance
      (envelope "getPropertyValue" "BATTERY" "42") (Json.str "BATTERY") "42" emptyWorld
      rfl rfl).2.1 0 [("message", Json.str "")] rfl rfl).2.1 (by decide),
   (getPropertyValue_reply_shape stubPlatform stubInstance
      (envelope "getPropertyValue" "FOO" "9") (Json.str "FOO") "9" emptyWorld rfl rfl).1 rfl,
   (getPropertyValue_reply_shape quirkPlatform quirkInstance
      (envelope "getPropertyValue" "STORAGE" "8") (Json.str "STORAGE") "8" emptyWorld
      rfl rfl).2.2 3 rfl (fun e h => Json.noConfusion h)⟩

/-- C3: when `C` is registered with provider `p` and `p`'s `Get` leaves the
error message empty and produces the data object `D`, `HandleMessage` on a
message that parses to an envelope with "cmd" = "getPropertyValue", "prop" = `C`
and "_reply_id" = `R` posts exactly one reply: the object with exactly the two
fields "_reply_id" = `R` and "data" = `D`. -/
theorem handleMessage_getPropertyValue_data (P : Platform) (inst : SystemInfoInstance)
    (message : String) (input : Json) (C R : String) (p : ProviderId) (e D : Fields)
    (w : World)
    (hparse : P.parse message = (input, ""))
    (hcmd : input.get "cmd" = some (Json.str "getPropertyValue"))
    (hprop : input.get "prop" = some (Json.str C))
    (hid : input.get "_reply_id" = some (Json.str R))
    (hreg : mapFind inst.classes_ C = some p)
    (hget : P.Get p (Json.obj [("message", Json.str "")]) (Json.obj []) =
      (Json.obj e, Json.obj D))
    (hmsg : (Fields.get e "message").to_str = "") :
    HandleMessage P inst message w =
      some { w with
        posted := w.posted ++ [(inst.self, P.serialize (Json.obj
          [("_reply_id", Json.str R), ("data", Json.obj D)]))]
        calls := w.calls ++ [ProviderCall.Get p] } := by
  obtain ⟨o, rfl, hR⟩ := (Json.get_eq_some_iff _ _ _).1 hid
  obtain ⟨_, ho, hC⟩ := (Json.get_eq_some_iff _ _ _).1 hprop
  cases ho
  have hfind : mapFind inst.classes_ (Fields.get o "prop").to_str = some p := by
    rw [hC]; exact hreg
  have hrun := HandleGetPropertyValue_found P inst o w p e hfind (by rw [hget])
  rw [hget] at hrun
  simp only [hmsg, ne_eq, not_true_eq_false, if_false, hR, Json.to_str_str] at hrun
  simp only [HandleMessage, hparse, hcmd, ne_eq, not_true_eq_false, if_false,
    Option.bind_eq_bind, Option.some_bind, Json.to_str_str, if_true]
  exact hrun

/-- C3 at the end-to-end example of the spec: BATTERY, reply id "42", data
{"level": 80}. -/
theorem handleMessage_getPropertyValue_data_witness :
    stubPlatform.parse batteryRequest = (envelope "getPropertyValue" "BATTERY" "42", "")
      ∧ stubPlatform.Get 0 (Json.obj [("message", Json.str "")]) (Json.obj []) =
          (Json.obj [("message", Json.str "")], Json.obj [("level", Json.num 80)])
      ∧ stubPlatform.serialize (Json.obj
          [("_reply_id", Json.str "42"), ("data", Json.obj [("level", Json.num 80)])]) =
          "\x7b\"_reply_id\":\"42\",\"data\":\x7b\"level\":80\x7d\x7d"
      ∧ HandleMessage stubPlatform stubInstance batteryRequest emptyWorld =
          some { emptyWorld with
            posted := emptyWorld.posted ++ [(stubInstance.self, stubPlatform.serialize (Json.obj
              [("_reply_id", Json.str "42"), ("data", Json.obj [("level", Json.num 80)])]))]
            calls := emptyWorld.calls ++ [ProviderCall.Get 0] } :=
  ⟨rfl, rfl, rfl,
   handleMessage_getPropertyValue_data stubPlatform stubInstance batteryRequest
     (envelope "getPropertyValue" "BATTERY" "42") "BATTERY" "42" 0
     [("message", Json.str "")] [("level", Json.num 80)] emptyWorld rfl rfl rfl rfl rfl rfl rfl⟩

/-- C4: when the category `C` is registered with provider `p` and `p`'s `Get`
sets the non-empty error message `M`, the reply is the object with
"_reply_id" and "error", where "error" is the provider's error object as it
is: its "message" is `M` unchanged, and the reply has no "data" field whatever
the provider wrote into data. -/
theorem getPropertyValue_provider_error (P : Platform) (inst : SystemInfoInstance)
    (input : Json) (C R M : String) (p : ProviderId) (e : Fields) (D : Json) (w : World)
    (hprop : input.get "prop" = some (Json.str C))
    (hid : input.get "_reply_id" = some (Json.str R))
    (hreg : mapFind inst.classes_ C = some p)
    (hget : P.Get p (Json.obj [("message", Json.str "")]) (Json.obj []) = (Json.obj e, D))
    (hmsg : Fields.get e "message" = Json.str M)
    (hM : M ≠ "") :
    HandleGetPropertyValue P inst input (Json.obj []) w =
        some { w with
          posted := w.posted ++ [(inst.self, P.serialize (Json.obj
            [("_reply_id", Json.str R), ("error", Json.obj e)]))]
          calls := w.calls ++ [ProviderCall.Get p] }
      ∧ ((Json.obj [("_reply_id", Json.str R), ("error", Json.obj e)]).get "error").bind
          (fun err => err.get "message") = some (Json.str M)
      ∧ mapFind [("_reply_id", Json.str R), ("error", Json.obj e)] "data" = none := by
  have herr : (Json.obj [("_reply_id", Json.str R), ("error", Json.obj e)]).get "error" =
      some (Json.obj e) := by
    simp [Json.get, Fields.get, mapFind]
  refine ⟨?_, by rw [herr]; simp [Json.get, hmsg], by simp [mapFind]⟩
  obtain ⟨o, rfl, hR⟩ := (Json.get_eq_some_iff _ _ _).1 hid
  obtain ⟨_, ho, hC⟩ := (Json.get_eq_some_iff _ _ _).1 hprop
  cases ho
  have hfind : mapFind inst.classes_ (Fields.get o "prop").to_str = some p := by
    rw [hC]; exact hreg
  have hrun := HandleGetPropertyValue_found P inst o w p e hfind (by rw [hget])
  have hne : (Fields.get e "message").to_str ≠ "" := by
    rw [hmsg]; exact hM
  simp only [hne, ne_eq, not_false_eq_true, if_true, hR, Json.to_str_str] at hrun
  exact hrun

/-- C4 at a concrete input: the CPU provider of the examples fails with "Get
CPU failed.". -/
theorem getPropertyValue_provider_error_witness :
    stubPlatform.Get 1 (Json.obj [("message", Json.str "")]) (Json.obj []) =
        (Json.obj [("message", Json.str "Get CPU failed.")], Json.obj [])
      ∧ (HandleGetPropertyValue stubPlatform stubInstance
            (envelope "getPropertyValue" "CPU" "5") (Json.obj []) emptyWorld =
          some { emptyWorld with
            posted := emptyWorld.posted ++ [(stubInstance.self, stubPlatform.serialize (Json.obj
              [("_reply_id", Json.str "5"),
               ("error", Json.obj [("message", Json.str "Get CPU failed.")])]))]
            calls := emptyWorld.calls ++ [ProviderCall.Get 1] }
        ∧ ((Json.obj [("_reply_id", Json.str "5"),
              ("error", Json.obj [("message", Json.str "Get CPU failed.")])]).get "error").bind
            (fun err => err.get "message") = some (Json.str "Get CPU failed.")
        ∧ mapFind [("_reply_id", Json.str "5"),
              ("error", Json.obj [("message", Json.str "Get CPU failed.")])] "data" = none) :=
  ⟨rfl, getPropertyValue_provider_error stubPlatform stubInstance
    (envelope "getPropertyValue" "CPU" "5") "CPU" "5" "Get CPU failed." 1
    [("message", Json.str "Get CPU failed.")] (Json.obj []) emptyWorld
    rfl rfl rfl rfl rfl (by decide)⟩

/-- C5: for a registered category `C` (provider `p`), handling startListening
for `C` twice leaves the listener lists, the posted messages and the output as
handling it once; when the client was listed at most once on `p` before, it is
listed exactly once afterwards, so one provider-side change of `C` delivers
exactly one event to it. -/
theorem startListening_idempotent (inst : SystemInfoInstance) (input : Json) (C : String)
    (p : ProviderId) (w : World) (event : String)
    (hprop : input.get "prop" = some (Json.str C))
    (hreg : mapFind inst.classes_ C = some p) :
    ∃ w1 w2, HandleStartListening inst input w = some w1
      ∧ HandleStartListening inst input w1 = some w2
      ∧ w2.listeners = w1.listeners ∧ w2.posted = w1.posted ∧ w2.cout = w1.cout
      ∧ ((w.listeners p).count inst.self ≤ 1 →
          (w2.listeners p).count inst.self = 1
          ∧ postedTo inst.self (providerChange p event w2) =
              postedTo inst.self w2 ++ [event]) := by
  obtain ⟨o, rfl, hC⟩ := (Json.get_eq_some_iff _ _ _).1 hprop
  have hfind : mapFind inst.classes_ (Fields.get o "prop").to_str = some p := by
    rw [hC]; exact hreg
  refine ⟨AddListener p inst.self w, AddListener p inst.self (AddListener p inst.self w),
    HandleStartListening_found inst o w p hfind,
    HandleStartListening_found inst o _ p hfind,
    AddListener_twice_listeners p inst.self w, rfl, rfl, ?_⟩
  intro hinv
  have hcount : ((AddListener p inst.self (AddListener p inst.self w)).listeners p).count
      inst.self = 1 := by
    rw [AddListener_twice_listeners]
    exact count_AddListener p inst.self w hinv
  refine ⟨hcount, ?_⟩
  rw [postedTo_providerChange, hcount]
  rfl

/-- C5 at a concrete input: client 7 starts listening to BATTERY twice in the
empty world. -/
theorem startListening_idempotent_witness :
    (emptyWorld.listeners 0).count stubInstance.self ≤ 1
      ∧ ∃ w1 w2, HandleStartListening stubInstance (envelope "startListening" "BATTERY" "1")
            emptyWorld = some w1
        ∧ HandleStartListening stubInstance (envelope "startListening" "BATTERY" "1") w1 =
            some w2
        ∧ w2.listeners = w1.listeners ∧ w2.posted = w1.posted ∧ w2.cout = w1.cout
        ∧ (w2.listeners 0).count stubInstance.self = 1
        ∧ postedTo stubInstance.self (providerChange 0 "level 55" w2) =
            postedTo stubInstance.self w2 ++ ["level 55"] := by
  obtain ⟨w1, w2, h1, h2, h3, h4, h5, h6⟩ :=
    startListening_idempotent stubInstance (envelope "startListening" "BATTERY" "1")
      "BATTERY" 0 emptyWorld "level 55" rfl rfl
  exact ⟨by decide, w1, w2, h1, h2, h3, h4, h5, h6 (by decide)⟩

/-- C6: in every state (so after every sequence of earlier startListening and
stopListening requests) the destructor applies `RemoveListener` for this client
to the provider of every registry entry, in registry order, and posts nothing;
afterwards the client is a listener on none of the registered providers, and
no sequence of later changes of registered providers delivers anything to
it. -/
theorem destroy_removes_client (inst : SystemInfoInstance) (w : World) :
    (∀ entry ∈ inst.classes_, inst.self ∉ (destroy inst w).listeners entry.2)
      ∧ (destroy inst w).calls = w.calls ++
          inst.classes_.map (fun entry => ProviderCall.RemoveListener entry.2 inst.self)
      ∧ (destroy inst w).posted = w.posted
      ∧ ∀ changes : List (ProviderId × String),
          (∀ ch ∈ changes, ch.1 ∈ inst.classes_.map Prod.snd) →
          postedTo inst.self (providerChanges changes (destroy inst w)) =
            postedTo inst.self w := by
  have hnot : ∀ q ∈ inst.classes_.map Prod.snd, inst.self ∉ (destroy inst w).listeners q := by
    intro q hq
    rw [destroy, destroy_loop_listeners, if_pos hq]
    exact not_mem_filter_ne inst.self _
  obtain ⟨hposted, _, hcalls⟩ := destroy_loop_frame inst.self inst.classes_ w
  refine ⟨fun entry he => hnot entry.2 (List.mem_map_of_mem Prod.snd he), hcalls, hposted, ?_⟩
  intro changes hch
  rw [postedTo_providerChanges inst.self changes (destroy inst w)
    (fun ch hc => hnot ch.1 (hch ch hc))]
  simp only [postedTo, destroy, hposted]

/-- C6 at a concrete input: client 7 listens to BATTERY and CPU, is torn down,
and both providers change afterwards. -/
theorem destroy_removes_client_witness :
    stubInstance.self ∈ (AddListener 1 7 (AddListener 0 7 emptyWorld)).listeners 0
      ∧ (∀ ch ∈ [((0 : ProviderId), "level 55"), (1, "load 3")],
          ch.1 ∈ stubInstance.classes_.map Prod.snd)
      ∧ postedTo stubInstance.self (providerChanges [(0, "level 55"), (1, "load 3")]
          (destroy stubInstance (AddListener 1 7 (AddListener 0 7 emptyWorld)))) =
          postedTo stubInstance.self (AddListener 1 7 (AddListener 0 7 emptyWorld)) :=
  ⟨by decide, by decide,
   (destroy_removes_client stubInstance (AddListener 1 7 (AddListener 0 7 emptyWorld))).2.2.2
     [(0, "level 55"), (1, "load 3")] (by decide)⟩

/-- C7: a startListening or stopListening request whose "prop" (read with
`to_str`) names no registered category returns with the world exactly as it
was: nothing is posted, no listener list changes and no provider operation is
logged. -/
theorem listening_unregistered (inst : SystemInfoInstance) (input v : Json) (w : World)
    (hprop : input.get "prop" = some v)
    (hunreg : ∀ entry ∈ inst.classes_, entry.1 ≠ v.to_str) :
    HandleStartListening inst input w = some w
      ∧ HandleStopListening inst input w = some w := by
  obtain ⟨o, rfl, hv⟩ := (Json.get_eq_some_iff _ _ _).1 hprop
  have hfind : mapFind inst.classes_ (Fields.get o "prop").to_str = none := by
    rw [hv]; exact mapFind_eq_none_of_forall_ne _ _ hunreg
  exact ⟨HandleStartListening_not_found inst o w hfind,
    HandleStopListening_not_found inst o w hfind⟩

/-- C7 at a concrete input: the category "battery" (lower case) is not
registered. -/
theorem listening_unregistered_witness :
    (∀ entry ∈ stubInstance.classes_, entry.1 ≠ (Json.str "battery").to_str)
      ∧ HandleStartListening stubInstance (envelope "startListening" "battery" "1")
          emptyWorld = some emptyWorld
      ∧ HandleStopListening stubInstance (envelope "startListening" "battery" "1")
          emptyWorld = some emptyWorld :=
  ⟨by decide, listening_unregistered stubInstance (envelope "startListening" "battery" "1")
    (Json.str "battery") emptyWorld rfl (by decide)⟩

/-- C8: for a registered category `C` (provider `p`) on which the client is
not a listener, stopListening returns normally and changes nothing but the
call log, which records the one `RemoveListener` call: nothing is posted and
every listener list, of `p` and of every other provider, is as it was. -/
theorem stopListening_not_subscribed (inst : SystemInfoInstance) (input : Json) (C : String)
    (p : ProviderId) (w : World)
    (hprop : input.get "prop" = some (Json.str C))
    (hreg : mapFind inst.classes_ C = some p)
    (hnot : inst.self ∉ w.listeners p) :
    HandleStopListening inst input w =
      some { w with calls := w.calls ++ [ProviderCall.RemoveListener p inst.self] } := by
  obtain ⟨o, rfl, hC⟩ := (Json.get_eq_some_iff _ _ _).1 hprop
  have hfind : mapFind inst.classes_ (Fields.get o "prop").to_str = some p := by
    rw [hC]; exact hreg
  rw [HandleStopListening_found inst o w p hfind]
  simp only [RemoveListener, filter_ne_of_not_mem inst.self _ hnot, Function.update_eq_self]

/-- C8 at a concrete input: client 7 listens to CPU only and stops listening
to BATTERY. -/
theorem stopListening_not_subscribed_witness :
    stubInstance.self ∉ (AddListener 1 7 emptyWorld).listeners 0
      ∧ HandleStopListening stubInstance (envelope "stopListening" "BATTERY" "2")
          (AddListener 1 7 emptyWorld) =
        some { AddListener 1 7 emptyWorld with
          calls := (AddListener 1 7 emptyWorld).calls ++
            [ProviderCall.RemoveListener 0 stubInstance.self] } :=
  ⟨by decide, stopListening_not_subscribed stubInstance
    (envelope "stopListening" "BATTERY" "2") "BATTERY" 0 (AddListener 1 7 emptyWorld)
    rfl rfl (by decide)⟩

/-- C9: when parsing reports an error (a non-empty error text), `HandleMessage`
writes "Ignoring message." to the standard output and returns: nothing is
posted, no provider operation is invoked and every listener list is as it
was. -/
theorem handleMessage_parse_error (P : Platform) (inst : SystemInfoInstance)
    (message : String) (w : World) (herr : (P.parse message).2 ≠ "") :
    HandleMessage P inst message w =
      some { w with cout := w.cout ++ ["Ignoring message.\n"] } := by
  simp only [HandleMessage, herr, ne_eq, not_false_eq_true, if_true]

/-- C9 at a concrete input: a truncated message. -/
theorem handleMessage_parse_error_witness :
    (stubPlatform.parse "\x7b\"cmd\":").2 ≠ ""
      ∧ HandleMessage stubPlatform stubInstance "\x7b\"cmd\":" emptyWorld =
        some { emptyWorld with cout := emptyWorld.cout ++ ["Ignoring message.\n"] } :=
  ⟨by decide, handleMessage_parse_error stubPlatform stubInstance "\x7b\"cmd\":" emptyWorld
    (by decide)⟩

/-- C10: when the message parses without error to an object whose "cmd", read
with `to_str` ("null" when the field is absent), is none of "getPropertyValue",
"startListening" and "stopListening", `HandleMessage` returns with the world
exactly as it was: nothing is posted and no provider operation is invoked,
whatever "prop" is. -/
theorem handleMessage_unknown_cmd (P : Platform) (inst : SystemInfoInstance)
    (message : String) (o : Fields) (w : World)
    (hparse : P.parse message = (Json.obj o, ""))
    (hcmd : (Fields.get o "cmd").to_str ∉
      ["getPropertyValue", "startListening", "stopListening"]) :
    HandleMessage P inst message w = some w := by
  simp only [List.mem_cons, List.mem_singleton, List.not_mem_nil, or_false, not_or] at hcmd
  obtain ⟨h1, h2, h3⟩ := hcmd
  simp only [HandleMessage, hparse, Json.get, ne_eq, not_true_eq_false, if_false,
    Option.bind_eq_bind, Option.some_bind, h1, h2, h3, Option.pure_def]

/-- C10 at two concrete inputs: an envelope without "cmd" and the command
"GetPropertyValue" (wrong case), both with the registered "prop" BATTERY. -/
theorem handleMessage_unknown_cmd_witness :
    (stubPlatform.parse "no cmd" = (Json.obj [("prop", Json.str "BATTERY")], "")
        ∧ HandleMessage stubPlatform stubInstance "no cmd" emptyWorld = some emptyWorld)
      ∧ (mapFind stubInstance.classes_ "BATTERY" = some 0
        ∧ HandleMessage stubPlatform stubInstance "GetPropertyValue BATTERY" emptyWorld =
            some emptyWorld) :=
  ⟨⟨rfl, handleMessage_unknown_cmd stubPlatform stubInstance "no cmd"
      [("prop", Json.str "BATTERY")] emptyWorld rfl (by decide)⟩,
   ⟨rfl, handleMessage_unknown_cmd stubPlatform stubInstance "GetPropertyValue BATTERY"
      [("_reply_id", Json.str "3"), ("cmd", Json.str "GetPropertyValue"),
       ("prop", Json.str "BATTERY")] emptyWorld rfl (by decide)⟩⟩

/-- C11, counterexample: registering a second class under the name "BATTERY",
which the registry already holds, does not fail and reports nothing: the call
returns the instance as it was, and "BATTERY" still maps to provider 0, not to
the newly registered provider 5. -/
theorem registerClass_duplicate_not_rejected :
    mapFind stubInstance.classes_ "BATTERY" = some 0
      ∧ RegisterClass ⟨"BATTERY", 5⟩ stubInstance = stubInstance
      ∧ mapFind (RegisterClass ⟨"BATTERY", 5⟩ stubInstance).classes_ "BATTERY" ≠ some 5 := by
  refine ⟨rfl, rfl, ?_⟩
  decide

/-- C11, amended: registering a class whose name the registry already holds is
silently ignored, the registry is returned as it was.  After
`InstancesMapInitialize` on an empty registry the name of each of the twelve
classes occurs exactly once among the keys and maps to the provider of the
first class registered under that name; when the twelve names are pairwise
distinct, every name maps to the provider it was registered with. -/
theorem registry_registration (T : ProviderClasses) (inst : SystemInfoInstance)
    (hempty : inst.classes_ = []) :
    (∀ (D : ProviderClass) (reg : SystemInfoInstance) (q : ProviderId),
        keysSorted reg.classes_ → mapFind reg.classes_ D.name_ = some q →
        RegisterClass D reg = reg)
      ∧ (∀ C ∈ registrationOrder T,
          ((InstancesMapInitialize T inst).classes_.map Prod.fst).count C.name_ = 1
          ∧ mapFind (InstancesMapInitialize T inst).classes_ C.name_ =
              firstRegistered (registrationOrder T) C.name_)
      ∧ (((registrationOrder T).map (fun C => C.name_)).Nodup →
          ∀ C ∈ registrationOrder T,
            mapFind (InstancesMapInitialize T inst).classes_ C.name_ = some C.GetInstance) := by
  have hs : keysSorted inst.classes_ := by
    rw [hempty]; exact List.Pairwise.nil
  have hfind : ∀ name, mapFind (InstancesMapInitialize T inst).classes_ name =
      firstRegistered (registrationOrder T) name := by
    intro name
    rw [InstancesMapInitialize_eq_registerAll, mapFind_registerAll _ _ inst hs, hempty]
    rfl
  have hsorted : keysSorted (InstancesMapInitialize T inst).classes_ := by
    rw [InstancesMapInitialize_eq_registerAll]
    exact keysSorted_registerAll _ inst hs
  refine ⟨?_, ?_, ?_⟩
  · intro D reg q hreg hq
    have hsame := mapInsert_of_mapFind_some reg.classes_ D.name_ D.GetInstance q hreg hq
    simp only [RegisterClass, hsame]
  · intro C hC
    obtain ⟨q, hq⟩ := firstRegistered_isSome (registrationOrder T) C hC
    exact ⟨count_key_eq_one _ C.name_ q hsorted ((hfind C.name_).trans hq), hfind C.name_⟩
  · intro hnodup C hC
    rw [hfind C.name_]
    exact firstRegistered_of_nodup _ hnodup C hC

/-- C11, amended, at concrete inputs: a second "BATTERY" class on the example
instance, and the twelve categories registered on a fresh instance. -/
theorem registry_registration_witness :
    freshInstance.classes_ = []
      ∧ (keysSorted stubInstance.classes_ ∧ mapFind stubInstance.classes_ "BATTERY" = some 0
          ∧ RegisterClass ⟨"BATTERY", 5⟩ stubInstance = stubInstance)
      ∧ ((registrationOrder stubClasses).map (fun C => C.name_)).Nodup
      ∧ mapFind (InstancesMapInitialize stubClasses freshInstance).classes_ "WIFI_NETWORK" =
          some 11
      ∧ ((InstancesMapInitialize stubClasses freshInstance).classes_.map Prod.fst).count
          "CPU" = 1 := by
  have hsorted : keysSorted stubInstance.classes_ := by
    unfold keysSorted; decide
  have hnodup : ((registrationOrder stubClasses).map (fun C => C.name_)).Nodup := by decide
  have hmain := registry_registration stubClasses freshInstance rfl
  exact ⟨rfl,
    ⟨hsorted, rfl, hmain.1 ⟨"BATTERY", 5⟩ stubInstance 0 hsorted rfl⟩,
    hnodup,
    hmain.2.2 hnodup stubClasses.SysInfoWifiNetwork (by decide),
    (hmain.2.1 stubClasses.SysInfoCpu (by decide)).1⟩

/-- C12, failing input: on the mobile build, with a cache file that holds the
line "http://tizen.org/system/duid=a1b2c3", the device-identifier block leaves
`s` pointing into the automatic array `duid`, the following `free(s)` has
undefined behaviour, and the getCapabilities request gets no reply; the same
platform without the cache file replies with "error" the empty string. -/
theorem getCapabilities_mobile_duid_no_reply :
    stubSyncPlatform.parse "\x7b\"cmd\":\"getCapabilities\"\x7d" =
        (Json.obj [("cmd", Json.str "getCapabilities")], "")
      ∧ duidPtr stubMobileWithDuid = CharPtr.notHeap "a1b2c3"
      ∧ free (duidPtr stubMobileWithDuid) = none
      ∧ HandleSyncMessage stubSyncPlatform ⟨true, false⟩ stubMobileWithDuid
          "\x7b\"cmd\":\"getCapabilities\"\x7d" emptyWorld = none
      ∧ (HandleSyncMessage stubSyncPlatform ⟨true, false⟩ stubMobile
          "\x7b\"cmd\":\"getCapabilities\"\x7d" emptyWorld).map (fun r => r.2) =
          some (some ("\x7b\"bluetooth\":true,\"duid\":\"\",\"error\":\"\","
            ++ "\"fmRadio\":false,\"openglestextureFormat\":\"3dcatc\","
            ++ "\"profile\":\"MOBILE_WEB\"\x7d")) := by
  refine ⟨rfl, by decide, by decide, rfl, by decide⟩

/-- C13, failing input: when 3dc and atc are the supported texture formats (the
lookup of utc fails, ptc, etc and pvrtc are false) the block builds "3dcatc",
without the separator that the joined list "3dc | atc" has, and that text is
the "openglestextureFormat" of the reply object; the 3dc branch does not set
`data`, which the branches of utc, ptc, etc and atc do. -/
theorem textureFormat_3dc_atc_no_separator :
    platformBoolIsTrue stubMobile "tizen.org/feature/opengles.texture_format.utc" = false
      ∧ platformBoolIsTrue stubMobile "tizen.org/feature/opengles.texture_format.3dc" = true
      ∧ platformBoolIsTrue stubMobile "tizen.org/feature/opengles.texture_format.atc" = true
      ∧ (textureFormatFull stubMobile).1 = "3dcatc"
      ∧ joinedTextureFormats false false false true true false = "3dc | atc"
      ∧ (capabilitiesObject ⟨true, false⟩ stubMobile).bind
          (fun o => mapFind o "openglestextureFormat") = some (Json.str "3dcatc") := by
  refine ⟨by decide, by decide, by decide, by decide, by decide, rfl⟩

end SystemInfo
